import Mathlib

/-!
Shallow embedding of the final (v5) variant of the covariant-clone idiom:
a free-function dispatcher `object::clone`, a `cloneable<T>` mixin with a
protected virtual duplication method befriended to the dispatcher, and the
example hierarchy `Figure` (abstract) / `Square` (concrete).

Modelling choices:
* C++ `double` is modelled as `Rat`; every value occurring in the tests
  (0, 4, 16) is exactly representable, so no rounding is lost.
* Heap allocation is modelled as a list of objects; `new` appends to the
  list and returns the fresh index.  `Figure` is abstract and `Square` is
  the only concrete class, so every allocated object is a `Square` value.
* Static types are a two-element tag type; a reference or pointer carries
  its static type tag, its const qualification and its heap address.
* The `static_assert` in the dispatcher becomes a boolean guard; the
  dispatcher returns `none` when the guard fails or the address dangles,
  so the absence of runtime failure is a provable `isSome` statement.
-/

namespace CovariantClone

/-- C++ `double`, modelled exactly (all test values are representable). -/
abbrev CDouble := Rat

/-- The static types of the example hierarchy. -/
inductive Ty where
  | Figure
  | Square
  deriving DecidableEq, Repr

/-- `T::base_type`: `cloneable<Figure>` declares `using base_type = T` with
`T = Figure`; `Figure` derives from `cloneable<Figure>` and `Square`
inherits the alias from `Figure`. -/
def base_type : Ty → Ty
  | Ty.Figure => Ty.Figure
  | Ty.Square => Ty.Figure

/-- `std::is_base_of<B, D>::value` restricted to the hierarchy (true when
`B` and `D` are the same class or `B` is an ancestor of `D`). -/
def is_base_of : Ty → Ty → Bool
  | Ty.Figure, _ => true
  | Ty.Square, Ty.Square => true
  | Ty.Square, Ty.Figure => false

/-- `struct Square : Figure { double a = 0; ... }` — the full state of a
heap object (the abstract base `Figure` contributes no data members). -/
structure Square where
  a : CDouble
  deriving DecidableEq, Repr

/-- `Square() = default` together with the in-class initializer `double a = 0`. -/
def defaultSquare : Square := ⟨0⟩

/-- `Square::area`: `return a * a;` -/
def Square.area (s : Square) : CDouble := s.a * s.a

/-- The heap: all allocated objects.  Addresses are list indices. -/
abbrev Heap := List Square

/-- `Square::clone`: `return new Square(*this);` — allocate a copy of the
receiver and return the raw pointer (fresh address). -/
def Square.clone (h : Heap) (s : Square) : Heap × Nat := (h ++ [s], h.length)

/-- A reference (or, equivalently in the model, the data of a non-null
pointer) of static type `sty` to the heap object at `addr`; `isConst`
records whether the view is const-qualified. -/
structure TypedRef where
  sty : Ty
  isConst : Bool
  addr : Nat
  deriving DecidableEq, Repr

/-- `std::unique_ptr<T>` (owning handle): the static pointee type, whether
that pointee type is const-qualified, and the owned address. -/
structure UniquePtr where
  pointee : Ty
  constPointee : Bool
  addr : Nat
  deriving DecidableEq, Repr

/-- The dispatcher `template<typename T> std::unique_ptr<T> clone(const T&)`:
template deduction takes `T` to be the (const-stripped) static type of the
argument; the `static_assert` checks `is_base_of<T::base_type, T>`;
`static_cast<const base_type&>(object).clone()` virtually dispatches to the
override of the dynamic type (always `Square`, the only concrete class);
`static_cast<T*>` narrows the returned pointer back to `T` and the result
is wrapped in `unique_ptr<T>`.  A failed guard or a dangling address gives
`none`; C++ has no corresponding runtime branch, and the theorems show the
`none` branches are unreachable for valid arguments. -/
def object.clone (h : Heap) (r : TypedRef) : Option (Heap × UniquePtr) :=
  if is_base_of (base_type r.sty) r.sty then
    match h[r.addr]? with
    | some s =>
        let res := Square.clone h s
        some (res.1, { pointee := r.sty, constPointee := false, addr := res.2 })
    | none => none
  else none

/-- A non-null pointer of static type `sty` to the heap object at `addr`;
`isConst` records whether the pointee type is const-qualified. -/
structure TypedPtr where
  sty : Ty
  isConst : Bool
  addr : Nat
  deriving DecidableEq, Repr

/-- Dereferencing a (non-null) pointer gives a reference with the same
static type, const qualification and address. -/
def TypedPtr.deref (p : TypedPtr) : TypedRef := ⟨p.sty, p.isConst, p.addr⟩

/-- The pointer overload `clone(T* object) { return clone(*object); }`:
dereference and forward to the reference overload. -/
def object.clonePtr (h : Heap) (p : TypedPtr) : Option (Heap × UniquePtr) :=
  object.clone h p.deref

/-- `clone(Square{...})` on a temporary: the rvalue is materialized (a fresh
heap object) and bound to the `const T&` parameter, then the reference
overload runs on it. -/
def object.cloneTemp (h : Heap) (s : Square) : Option (Heap × UniquePtr) :=
  object.clone (h ++ [s]) ⟨Ty.Square, true, h.length⟩

/-- Mutation of the `a` member of the object at address `i` (`sq.a = x`). -/
def setSide (h : Heap) (i : Nat) (x : CDouble) : Heap := h.set i ⟨x⟩

/-- C++ access specifiers. -/
inductive Access where
  | publ
  | prot
  | priv
  deriving DecidableEq, Repr

/-- Access specifier of the virtual `clone` in `cloneable<T>` (declared
after `protected:`). -/
def cloneable_clone_access : Access := Access.prot

/-- Access specifier of the override `Square::clone` (declared after
`protected:`). -/
def Square_clone_access : Access := Access.prot

/-- The relevant kinds of call sites for the virtual `clone`. -/
inductive Caller where
  | dispatcher
  | memberOfSelf
  | memberOfDerived
  | external
  deriving DecidableEq, Repr

/-- The friend declarations of `cloneable<T>`: exactly the dispatcher
(`template <typename X> friend std::unique_ptr<X> object::clone(const X&)`). -/
def cloneable_friends : List Caller := [Caller.dispatcher]

/-- The C++ access rule applied to the virtual `clone` member: a public
member is callable by anyone; a protected member by the class itself, its
subclasses and its friends; a private member by the class itself and its
friends. -/
def canCallVirtualClone (c : Caller) : Bool :=
  match cloneable_clone_access with
  | Access.publ => true
  | Access.prot =>
      c == Caller.memberOfSelf || c == Caller.memberOfDerived ||
        cloneable_friends.contains c
  | Access.priv => c == Caller.memberOfSelf || cloneable_friends.contains c

/-- The `static_assert` condition holds for every type of the hierarchy. -/
theorem static_assert_holds (T : Ty) : is_base_of (base_type T) T = true := by
  cases T <;> rfl

/-- Characterisation of a successful dispatch: with a valid address the
dispatcher extends the heap by one copy of the source and returns a handle
of the argument static type owning the fresh address. -/
theorem clone_some (h : Heap) (r : TypedRef) (s : Square)
    (hs : h[r.addr]? = some s) :
    object.clone h r = some (h ++ [s], ⟨r.sty, false, h.length⟩) := by
  unfold object.clone
  rw [static_assert_holds, hs]
  rfl

/-- Inversion of a successful dispatch. -/
theorem clone_some_inv (h : Heap) (r : TypedRef) (h2 : Heap) (p : UniquePtr)
    (hc : object.clone h r = some (h2, p)) :
    ∃ s, h[r.addr]? = some s ∧ h2 = h ++ [s] ∧
      p = ⟨r.sty, false, h.length⟩ := by
  unfold object.clone at hc
  rw [static_assert_holds] at hc
  cases he : h[r.addr]? with
  | none => rw [he] at hc; simp at hc
  | some s =>
      rw [he] at hc
      simp only [Square.clone, if_true, Option.some.injEq, Prod.mk.injEq] at hc
      exact ⟨s, rfl, hc.1.symm, hc.2.symm⟩

/-- A valid dereference implies the address is in bounds. -/
theorem addr_lt_of_getElem?_some (h : Heap) (i : Nat) (s : Square)
    (hs : h[i]? = some s) : i < h.length :=
  (List.getElem?_eq_some.mp hs).1

/-- Claim C1: the dispatcher is type-preserving: for any reference of
static type `T` (a `Square` value, or the same object viewed through the
ancestor type `Figure`), a successful dispatch returns an owning handle
whose static pointee type is exactly `T` (and not const-qualified). -/
theorem C1_clone_type_preserving (h : Heap) (r : TypedRef) (h2 : Heap)
    (p : UniquePtr) (hc : object.clone h r = some (h2, p)) :
    p.pointee = r.sty ∧ p.constPointee = false := by
  obtain ⟨s, _, _, hp⟩ := clone_some_inv h r h2 p hc
  rw [hp]
  exact ⟨rfl, rfl⟩

/-- Witness for C1 at a concrete input: a `Square` of side 4 cloned through
a `Figure`-typed view. -/
theorem C1_clone_type_preserving_witness :
    object.clone [⟨4⟩] ⟨Ty.Figure, false, 0⟩ =
      some ([⟨4⟩, ⟨4⟩], ⟨Ty.Figure, false, 1⟩) ∧
    (⟨Ty.Figure, false, 1⟩ : UniquePtr).pointee = Ty.Figure ∧
    (⟨Ty.Figure, false, 1⟩ : UniquePtr).constPointee = false :=
  ⟨by rfl,
   C1_clone_type_preserving [⟨4⟩] ⟨Ty.Figure, false, 0⟩ _ _ (by rfl)⟩

/-- Claim C2: a successful clone returns a referent that is value-equal to
the source (all observable state, hence also the area) but is a fresh,
distinct allocation: mutating the side of the copy leaves the source
unchanged, and mutating the side of the source leaves the copy unchanged. -/
theorem C2_independent_copy (h : Heap) (r : TypedRef) (s : Square)
    (h2 : Heap) (p : UniquePtr) (hs : h[r.addr]? = some s)
    (hc : object.clone h r = some (h2, p)) :
    h2[p.addr]? = some s ∧ p.addr ≠ r.addr ∧
    (∀ x, (setSide h2 p.addr x)[r.addr]? = some s) ∧
    (∀ x, (setSide h2 r.addr x)[p.addr]? = some s) := by
  have hlt : r.addr < h.length := addr_lt_of_getElem?_some h r.addr s hs
  obtain ⟨s2, hs2, hh, hp⟩ := clone_some_inv h r h2 p hc
  rw [hs] at hs2
  obtain rfl : s = s2 := Option.some.injEq .. ▸ hs2.symm ▸ rfl
  subst hh
  subst hp
  have hne : (h.length : Nat) ≠ r.addr := (Nat.ne_of_lt hlt).symm
  have hsrc : (h ++ [s])[r.addr]? = some s := by
    rw [List.getElem?_append_left hlt]; exact hs
  have hcopy : (h ++ [s])[h.length]? = some s :=
    List.getElem?_concat_length h s
  refine ⟨hcopy, hne, ?_, ?_⟩
  · intro x
    rw [setSide, List.getElem?_set_ne hne]
    exact hsrc
  · intro x
    rw [setSide, List.getElem?_set_ne (Ne.symm hne)]
    exact hcopy

/-- Witness for C2 at a concrete input. -/
theorem C2_independent_copy_witness :
    ([⟨4⟩] : Heap)[0]? = some ⟨4⟩ ∧
    object.clone [⟨4⟩] ⟨Ty.Square, false, 0⟩ =
      some ([⟨4⟩, ⟨4⟩], ⟨Ty.Square, false, 1⟩) ∧
    (([⟨4⟩, ⟨4⟩] : Heap)[(1 : Nat)]? = some ⟨4⟩ ∧ (1 : Nat) ≠ 0 ∧
     (∀ x, (setSide [⟨4⟩, ⟨4⟩] 1 x)[(0 : Nat)]? = some ⟨4⟩) ∧
     (∀ x, (setSide [⟨4⟩, ⟨4⟩] 0 x)[(1 : Nat)]? = some ⟨4⟩)) :=
  ⟨by rfl, by rfl,
   C2_independent_copy [⟨4⟩] ⟨Ty.Square, false, 0⟩ ⟨4⟩ [⟨4⟩, ⟨4⟩]
     ⟨Ty.Square, false, 1⟩ (by rfl) (by rfl)⟩

/-- Claim C3: concrete scenario for `Square{4.0}`: cloning the value at
static type `Square` yields a handle of pointee type `Square` to an object
of area 16; cloning the same object through a `Figure`-typed pointer
yields a handle of pointee type `Figure` to an object of area 16, equal to
the area of the source. -/
theorem C3_square4_scenario :
    (object.clone [⟨4⟩] ⟨Ty.Square, false, 0⟩).map
        (fun x => (x.2.pointee, (x.1[x.2.addr]?).map Square.area)) =
      some (Ty.Square, some 16) ∧
    (object.clonePtr [⟨4⟩] ⟨Ty.Figure, false, 0⟩).map
        (fun x => (x.2.pointee, (x.1[x.2.addr]?).map Square.area)) =
      some (Ty.Figure, some 16) ∧
    Square.area ⟨4⟩ = 16 := by
  have harea : Square.area ⟨4⟩ = 16 := by
    simp only [Square.area]
    norm_num
  refine ⟨?_, ?_, harea⟩ <;>
    simp [object.clone, object.clonePtr, TypedPtr.deref, Square.clone, harea,
      is_base_of, base_type]

/-- Claim C4: the pointer overload is a thin forwarding wrapper over the
reference overload: for every non-null pointer it returns exactly the
result of the reference overload on the dereferenced argument, with the
same static result type and a value-equal referent. -/
theorem C4_ptr_forwarding (h : Heap) (p : TypedPtr) (s : Square)
    (hs : h[p.addr]? = some s) :
    object.clonePtr h p = object.clone h p.deref ∧
    object.clonePtr h p = some (h ++ [s], ⟨p.sty, false, h.length⟩) ∧
    object.clone h p.deref = some (h ++ [s], ⟨p.sty, false, h.length⟩) := by
  have hd : object.clone h p.deref = some (h ++ [s], ⟨p.sty, false, h.length⟩) :=
    clone_some h p.deref s hs
  exact ⟨rfl, hd, hd⟩

/-- Witness for C4 at a concrete input. -/
theorem C4_ptr_forwarding_witness :
    ([⟨4⟩] : Heap)[(0 : Nat)]? = some ⟨4⟩ ∧
    (object.clonePtr [⟨4⟩] ⟨Ty.Figure, false, 0⟩ =
       object.clone [⟨4⟩] (TypedPtr.deref ⟨Ty.Figure, false, 0⟩) ∧
     object.clonePtr [⟨4⟩] ⟨Ty.Figure, false, 0⟩ =
       some ([⟨4⟩, ⟨4⟩], ⟨Ty.Figure, false, 1⟩) ∧
     object.clone [⟨4⟩] (TypedPtr.deref ⟨Ty.Figure, false, 0⟩) =
       some ([⟨4⟩, ⟨4⟩], ⟨Ty.Figure, false, 1⟩)) :=
  ⟨by rfl, C4_ptr_forwarding [⟨4⟩] ⟨Ty.Figure, false, 0⟩ ⟨4⟩ (by rfl)⟩

/-- Claim C5: no runtime error paths: for every type of the hierarchy the
`static_assert` condition `is_base_of<T::base_type, T>` holds (the
compile-time guard passes), and for every valid reference the whole
dispatch (ancestor cast, virtual call, narrowing cast, handle wrap)
produces a result, never reaching a failure branch. -/
theorem C5_no_runtime_failure (h : Heap) (r : TypedRef)
    (hv : r.addr < h.length) :
    is_base_of (base_type r.sty) r.sty = true ∧
    ∃ h2 p, object.clone h r = some (h2, p) := by
  refine ⟨static_assert_holds r.sty, ?_⟩
  exact ⟨h ++ [h[r.addr]], ⟨r.sty, false, h.length⟩,
    clone_some h r h[r.addr] (List.getElem?_eq_getElem hv)⟩

/-- Witness for C5 at a concrete input. -/
theorem C5_no_runtime_failure_witness :
    (0 : Nat) < ([defaultSquare] : Heap).length ∧
    (is_base_of (base_type Ty.Figure) Ty.Figure = true ∧
     ∃ h2 p, object.clone [defaultSquare] ⟨Ty.Figure, false, 0⟩ =
       some (h2, p)) :=
  ⟨by decide,
   C5_no_runtime_failure [defaultSquare] ⟨Ty.Figure, false, 0⟩ (by decide)⟩

/-- Claim C6: the virtual duplication method is not publicly callable: it
is declared protected both in the `cloneable` mixin and in the concrete
override `Square::clone`; the dispatcher is the sole friend, so under the
C++ access rule it can call the method while every external call site is
rejected (members of the class and its subclasses being the permitted
exceptions inherent to protected access). -/
theorem C6_access_restricted :
    cloneable_clone_access = Access.prot ∧
    Square_clone_access = Access.prot ∧
    cloneable_friends = [Caller.dispatcher] ∧
    canCallVirtualClone Caller.dispatcher = true ∧
    canCallVirtualClone Caller.memberOfSelf = true ∧
    canCallVirtualClone Caller.memberOfDerived = true ∧
    canCallVirtualClone Caller.external = false := by
  decide

/-- Claim C7: value category and const qualification do not affect the
dispatcher: cloning a materialized temporary behaves exactly like cloning
a named (non-const) value at the same address, the result of cloning a
temporary is a handle of pointee type `Square` to a value-equal object,
and the result never depends on — nor carries — const qualification. -/
theorem C7_value_category_const_invariant (h : Heap) (s : Square) (c : Bool)
    (sty : Ty) (i : Nat) :
    object.cloneTemp h s = object.clone (h ++ [s]) ⟨Ty.Square, false, h.length⟩ ∧
    (∃ h2 p, object.cloneTemp h s = some (h2, p) ∧ p.pointee = Ty.Square ∧
      p.constPointee = false ∧ h2[p.addr]? = some s) ∧
    object.clone h ⟨sty, c, i⟩ = object.clone h ⟨sty, false, i⟩ ∧
    ((object.clone h ⟨sty, c, i⟩).map fun x => x.2.constPointee).getD false
      = false := by
  have hmat : (h ++ [s])[h.length]? = some s := List.getElem?_concat_length h s
  have htmp : object.cloneTemp h s =
      some ((h ++ [s]) ++ [s], ⟨Ty.Square, false, (h ++ [s]).length⟩) :=
    clone_some (h ++ [s]) ⟨Ty.Square, true, h.length⟩ s hmat
  refine ⟨rfl, ?_, rfl, ?_⟩
  · exact ⟨(h ++ [s]) ++ [s], ⟨Ty.Square, false, (h ++ [s]).length⟩, htmp,
      rfl, rfl, List.getElem?_concat_length (h ++ [s]) s⟩
  · cases he : object.clone h ⟨sty, c, i⟩ with
    | none => rfl
    | some x =>
        obtain ⟨_, _, _, hp⟩ :=
          clone_some_inv h ⟨sty, c, i⟩ x.1 x.2 (by rw [he])
        simp [hp]

/-- Claim C8: the dispatcher is stateless and deterministic as a two-run
property: it is a pure function of the heap and the argument, and two
invocations on sources with equal observable state and equal static type
produce handles with equal pointee type and value-equal referents. -/
theorem C8_two_run_deterministic (h1 h2 : Heap) (r1 r2 : TypedRef)
    (s : Square) (e1 : h1[r1.addr]? = some s) (e2 : h2[r2.addr]? = some s)
    (est : r1.sty = r2.sty) :
    ∃ g1 g2 p1 p2,
      object.clone h1 r1 = some (g1, p1) ∧
      object.clone h2 r2 = some (g2, p2) ∧
      p1.pointee = p2.pointee ∧ p1.constPointee = p2.constPointee ∧
      g1[p1.addr]? = g2[p2.addr]? := by
  refine ⟨h1 ++ [s], h2 ++ [s], ⟨r1.sty, false, h1.length⟩,
    ⟨r2.sty, false, h2.length⟩, clone_some h1 r1 s e1,
    clone_some h2 r2 s e2, est, rfl, ?_⟩
  rw [List.getElem?_concat_length, List.getElem?_concat_length]

/-- Witness for C8 at concrete inputs: two different heaps and views with
value-equal sources. -/
theorem C8_two_run_deterministic_witness :
    ([⟨4⟩] : Heap)[(0 : Nat)]? = some ⟨4⟩ ∧
    ([⟨1⟩, ⟨4⟩] : Heap)[(1 : Nat)]? = some ⟨4⟩ ∧
    (⟨Ty.Square, false, 0⟩ : TypedRef).sty = (⟨Ty.Square, true, 1⟩ : TypedRef).sty ∧
    ∃ g1 g2 p1 p2,
      object.clone [⟨4⟩] ⟨Ty.Square, false, 0⟩ = some (g1, p1) ∧
      object.clone [⟨1⟩, ⟨4⟩] ⟨Ty.Square, true, 1⟩ = some (g2, p2) ∧
      p1.pointee = p2.pointee ∧ p1.constPointee = p2.constPointee ∧
      g1[p1.addr]? = g2[p2.addr]? :=
  ⟨by rfl, by rfl, by rfl,
   C8_two_run_deterministic [⟨4⟩] [⟨1⟩, ⟨4⟩] ⟨Ty.Square, false, 0⟩
     ⟨Ty.Square, true, 1⟩ ⟨4⟩ (by rfl) (by rfl) rfl⟩

/-- Claim C9: clone never modifies its source: a successful dispatch only
appends a fresh object, leaving every pre-existing object (in particular
the source, its side attribute and its area) exactly as it was. -/
theorem C9_clone_preserves_source (h : Heap) (r : TypedRef) (h2 : Heap)
    (p : UniquePtr) (hc : object.clone h r = some (h2, p)) :
    h2.take h.length = h ∧ h2[r.addr]? = h[r.addr]? ∧
    (h2[r.addr]?).map Square.area = (h[r.addr]?).map Square.area := by
  obtain ⟨s, hs, hh, _⟩ := clone_some_inv h r h2 p hc
  have hlt : r.addr < h.length := addr_lt_of_getElem?_some h r.addr s hs
  subst hh
  have hg : (h ++ [s])[r.addr]? = h[r.addr]? := List.getElem?_append_left hlt
  exact ⟨List.take_left h [s], hg, by rw [hg]⟩

/-- Witness for C9 at a concrete input. -/
theorem C9_clone_preserves_source_witness :
    object.clone [⟨4⟩] ⟨Ty.Square, false, 0⟩ =
      some ([⟨4⟩, ⟨4⟩], ⟨Ty.Square, false, 1⟩) ∧
    (([⟨4⟩, ⟨4⟩] : Heap).take 1 = [⟨4⟩] ∧
     ([⟨4⟩, ⟨4⟩] : Heap)[(0 : Nat)]? = ([⟨4⟩] : Heap)[(0 : Nat)]? ∧
     (([⟨4⟩, ⟨4⟩] : Heap)[(0 : Nat)]?).map Square.area =
       (([⟨4⟩] : Heap)[(0 : Nat)]?).map Square.area) :=
  ⟨by rfl,
   C9_clone_preserves_source [⟨4⟩] ⟨Ty.Square, false, 0⟩ [⟨4⟩, ⟨4⟩]
     ⟨Ty.Square, false, 1⟩ (by rfl)⟩

/-- Claim C10: `Square::area` returns the square of the side attribute, a
default-constructed `Square` has side 0 and area 0, and the relation is
preserved by cloning: the referent of the returned handle has the same
area as the source. -/
theorem C10_area_spec (x : CDouble) (h : Heap) (r : TypedRef) (h2 : Heap)
    (p : UniquePtr) (hc : object.clone h r = some (h2, p)) :
    Square.area ⟨x⟩ = x * x ∧ defaultSquare.a = 0 ∧
    Square.area defaultSquare = 0 ∧
    (h2[p.addr]?).map Square.area = (h[r.addr]?).map Square.area := by
  obtain ⟨s, hs, hh, hp⟩ := clone_some_inv h r h2 p hc
  subst hh
  subst hp
  have hcopy : (h ++ [s])[h.length]? = some s := List.getElem?_concat_length h s
  refine ⟨rfl, rfl, by simp [Square.area, defaultSquare], ?_⟩
  rw [hcopy, hs]

/-- Witness for C10 at a concrete input. -/
theorem C10_area_spec_witness :
    object.clone [⟨4⟩] ⟨Ty.Square, false, 0⟩ =
      some ([⟨4⟩, ⟨4⟩], ⟨Ty.Square, false, 1⟩) ∧
    (Square.area ⟨4⟩ = 4 * 4 ∧ defaultSquare.a = 0 ∧
     Square.area defaultSquare = 0 ∧
     (([⟨4⟩, ⟨4⟩] : Heap)[(1 : Nat)]?).map Square.area =
       (([⟨4⟩] : Heap)[(0 : Nat)]?).map Square.area) :=
  ⟨by rfl,
   C10_area_spec 4 [⟨4⟩] ⟨Ty.Square, false, 0⟩ [⟨4⟩, ⟨4⟩]
     ⟨Ty.Square, false, 1⟩ (by rfl)⟩

end CovariantClone
